import Mathlib

/-!
Verification of the Spatial Alignment & Atlas Region Engine of the
DCCCSlicer localizer module.

Shallow embedding of:
- localizer/lib/math_utils.py      (transform algebra: translation, Rodrigues
  rotation, two-point affine construction) over exact reals;
- localizer/lib/image_alignment.py (ImageAlignmentLogic: translate_ac,
  transform_acpc, transform_lr) as explicit state-passing functions;
- localizer/lib/atlas_manager.py   (AtlasManager: set_atlas / load_atlas state
  machine, RAS-to-voxel mapping, label lookup, region hits, combined masks)
  over exact rationals.

Modelling conventions:
- numpy floating point arithmetic is modelled exactly (rationals for the
  voxel/state computations, reals for the trigonometric transform algebra);
- a numpy division by zero produces NaN values; a NaN-contaminated vector,
  matrix or volume geometry is modelled as the value none of an Option type,
  and NaN propagation as Option bind;
- a Python exception escaping a function is modelled with Except.error;
- Python round (round half to even, as applied to the voxel coordinates) is
  modelled by pyRound;
- host-scene collaborators (file system, node lookup, volume loading) are
  passed as explicit function parameters of the model.
-/

namespace DCCC

/-- A 3-vector with named components, as the numpy length-3 arrays used
throughout math_utils.py and atlas_manager.py. -/
structure Vec3 (α : Type) where
  x : α
  y : α
  z : α
deriving DecidableEq

/-- A dense 4 by 4 homogeneous matrix, as the numpy / vtk 4 by 4 matrices. -/
structure Mat4 (α : Type) where
  m00 : α
  m01 : α
  m02 : α
  m03 : α
  m10 : α
  m11 : α
  m12 : α
  m13 : α
  m20 : α
  m21 : α
  m22 : α
  m23 : α
  m30 : α
  m31 : α
  m32 : α
  m33 : α
deriving DecidableEq

/-- A 3 by 3 matrix (the rotation block manipulated by create_rotation_matrix
before it is written into the top-left corner of a 4 by 4 identity). -/
structure Mat3 (α : Type) where
  a00 : α
  a01 : α
  a02 : α
  a10 : α
  a11 : α
  a12 : α
  a20 : α
  a21 : α
  a22 : α
deriving DecidableEq

variable {α : Type}

/-- The 4 by 4 identity matrix (numpy eye(4), vtkMatrix4x4 default). -/
def idMat4 [Zero α] [One α] : Mat4 α :=
  ⟨1, 0, 0, 0,
   0, 1, 0, 0,
   0, 0, 1, 0,
   0, 0, 0, 1⟩

/-- The 3 by 3 identity matrix (numpy eye(3)). -/
def idMat3 [Zero α] [One α] : Mat3 α :=
  ⟨1, 0, 0,
   0, 1, 0,
   0, 0, 1⟩

/-- Row-by-column product of two 4 by 4 matrices (numpy dot,
vtkMatrix4x4.Multiply4x4). -/
def matMul [Mul α] [Add α] (A B : Mat4 α) : Mat4 α :=
  ⟨A.m00*B.m00 + A.m01*B.m10 + A.m02*B.m20 + A.m03*B.m30,
   A.m00*B.m01 + A.m01*B.m11 + A.m02*B.m21 + A.m03*B.m31,
   A.m00*B.m02 + A.m01*B.m12 + A.m02*B.m22 + A.m03*B.m32,
   A.m00*B.m03 + A.m01*B.m13 + A.m02*B.m23 + A.m03*B.m33,
   A.m10*B.m00 + A.m11*B.m10 + A.m12*B.m20 + A.m13*B.m30,
   A.m10*B.m01 + A.m11*B.m11 + A.m12*B.m21 + A.m13*B.m31,
   A.m10*B.m02 + A.m11*B.m12 + A.m12*B.m22 + A.m13*B.m32,
   A.m10*B.m03 + A.m11*B.m13 + A.m12*B.m23 + A.m13*B.m33,
   A.m20*B.m00 + A.m21*B.m10 + A.m22*B.m20 + A.m23*B.m30,
   A.m20*B.m01 + A.m21*B.m11 + A.m22*B.m21 + A.m23*B.m31,
   A.m20*B.m02 + A.m21*B.m12 + A.m22*B.m22 + A.m23*B.m32,
   A.m20*B.m03 + A.m21*B.m13 + A.m22*B.m23 + A.m23*B.m33,
   A.m30*B.m00 + A.m31*B.m10 + A.m32*B.m20 + A.m33*B.m30,
   A.m30*B.m01 + A.m31*B.m11 + A.m32*B.m21 + A.m33*B.m31,
   A.m30*B.m02 + A.m31*B.m12 + A.m32*B.m22 + A.m33*B.m32,
   A.m30*B.m03 + A.m31*B.m13 + A.m32*B.m23 + A.m33*B.m33⟩

/-- Row-by-column product of two 3 by 3 matrices (numpy dot(K, K)). -/
def mat3Mul [Mul α] [Add α] (A B : Mat3 α) : Mat3 α :=
  ⟨A.a00*B.a00 + A.a01*B.a10 + A.a02*B.a20,
   A.a00*B.a01 + A.a01*B.a11 + A.a02*B.a21,
   A.a00*B.a02 + A.a01*B.a12 + A.a02*B.a22,
   A.a10*B.a00 + A.a11*B.a10 + A.a12*B.a20,
   A.a10*B.a01 + A.a11*B.a11 + A.a12*B.a21,
   A.a10*B.a02 + A.a11*B.a12 + A.a12*B.a22,
   A.a20*B.a00 + A.a21*B.a10 + A.a22*B.a20,
   A.a20*B.a01 + A.a21*B.a11 + A.a22*B.a21,
   A.a20*B.a02 + A.a21*B.a12 + A.a22*B.a22⟩

/-- Entrywise sum of two 3 by 3 matrices. -/
def mat3Add [Add α] (A B : Mat3 α) : Mat3 α :=
  ⟨A.a00+B.a00, A.a01+B.a01, A.a02+B.a02,
   A.a10+B.a10, A.a11+B.a11, A.a12+B.a12,
   A.a20+B.a20, A.a21+B.a21, A.a22+B.a22⟩

/-- Scalar multiple of a 3 by 3 matrix. -/
def mat3Smul [Mul α] (c : α) (A : Mat3 α) : Mat3 α :=
  ⟨c*A.a00, c*A.a01, c*A.a02,
   c*A.a10, c*A.a11, c*A.a12,
   c*A.a20, c*A.a21, c*A.a22⟩

/-- Embed a 3 by 3 rotation block into a 4 by 4 matrix with zero translation
column and bottom row 0,0,0,1 (rotation_matrix = eye(4);
rotation_matrix[:3,:3] = R in create_rotation_matrix). -/
def toMat4 [Zero α] [One α] (R : Mat3 α) : Mat4 α :=
  ⟨R.a00, R.a01, R.a02, 0,
   R.a10, R.a11, R.a12, 0,
   R.a20, R.a21, R.a22, 0,
   0, 0, 0, 1⟩

/-- Apply a 3 by 3 matrix to a 3-vector. -/
def mulVec3 [Mul α] [Add α] (A : Mat3 α) (v : Vec3 α) : Vec3 α :=
  ⟨A.a00*v.x + A.a01*v.y + A.a02*v.z,
   A.a10*v.x + A.a11*v.y + A.a12*v.z,
   A.a20*v.x + A.a21*v.y + A.a22*v.z⟩

/-- Apply a 4 by 4 matrix to the homogeneous extension of a 3-vector and keep
the first three result components (vtkMatrix4x4.MultiplyPoint on
the point with trailing 1.0, as read back in _ras_to_voxel). -/
def mulPoint [Mul α] [Add α] [One α] (M : Mat4 α) (p : Vec3 α) : Vec3 α :=
  ⟨M.m00*p.x + M.m01*p.y + M.m02*p.z + M.m03*1,
   M.m10*p.x + M.m11*p.y + M.m12*p.z + M.m13*1,
   M.m20*p.x + M.m21*p.y + M.m22*p.z + M.m23*1⟩

/-- Componentwise difference of 3-vectors. -/
def subV [Sub α] (a b : Vec3 α) : Vec3 α :=
  ⟨a.x - b.x, a.y - b.y, a.z - b.z⟩

/-- Componentwise negation of a 3-vector (the translation -ac). -/
def negV [Neg α] (a : Vec3 α) : Vec3 α :=
  ⟨-a.x, -a.y, -a.z⟩

/-- Division of a 3-vector by a scalar (numpy v / norm). -/
def vdiv [Div α] (v : Vec3 α) (s : α) : Vec3 α :=
  ⟨v.x / s, v.y / s, v.z / s⟩

/-- Dot product of 3-vectors (numpy dot on length-3 arrays). -/
def dotV [Mul α] [Add α] (a b : Vec3 α) : α :=
  a.x*b.x + a.y*b.y + a.z*b.z

/-- Cross product of 3-vectors (numpy cross). -/
def crossV [Mul α] [Sub α] (a b : Vec3 α) : Vec3 α :=
  ⟨a.y*b.z - a.z*b.y, a.z*b.x - a.x*b.z, a.x*b.y - a.y*b.x⟩

/-- create_translation_matrix of math_utils.py: the identity with the
translation column set to the given vector. -/
def createTranslationMatrix [Zero α] [One α] (v : Vec3 α) : Mat4 α :=
  ⟨1, 0, 0, v.x,
   0, 1, 0, v.y,
   0, 0, 1, v.z,
   0, 0, 0, 1⟩

/-! ### Atlas region mapper (atlas_manager.py), over exact rationals -/

/-- Integer voxel coordinates in the order stored by _ras_to_voxel:
voxel_coords = round of the i, j, k components. -/
structure Voxel where
  i : ℤ
  j : ℤ
  k : ℤ
deriving DecidableEq

/-- The numpy label array returned by slicer.util.arrayFromVolume, whose
shape enumerates the volume dimensions in k, j, i (z-major) order, and whose
entries are the integer atlas labels; data is read as data k j i. -/
structure AtlasArr where
  shape0 : ℕ
  shape1 : ℕ
  shape2 : ℕ
  data : ℕ → ℕ → ℕ → ℤ

/-- Python round with no digits argument on an exact value: round half to
even, returning an integer (the int(round(x)) of _ras_to_voxel). -/
def pyRound (q : ℚ) : ℤ :=
  let f := ⌊q⌋
  let r := q - (f : ℚ)
  if r < 1/2 then f
  else if 1/2 < r then f + 1
  else if f % 2 = 0 then f else f + 1

/-- One numpy index access on one axis: a nonnegative index must be below the
dimension, a negative index wraps from the end (numpy semantics); the access
raises IndexError, modelled none, otherwise. -/
def npIndex (dim : ℕ) (idx : ℤ) : Option ℕ :=
  if 0 ≤ idx then
    if idx < (dim : ℤ) then some idx.toNat else none
  else
    if -(dim : ℤ) ≤ idx then some (((dim : ℤ) + idx).toNat) else none

/-- _ras_to_voxel of AtlasManager: apply the RAS-to-IJK matrix to the
homogeneous point, round each of the first three components half to even,
then return the voxel only if, mirroring the source exactly,
0 ≤ v0 < shape 0 and 0 ≤ v1 < shape 1 and 0 ≤ v2 < shape 2 — the shape is
the numpy (z, y, x) shape, so the source compares each ijk index against
the dimension of the opposite axis. -/
def rasToVoxel (rasToIjk : Mat4 ℚ) (arr : AtlasArr) (p : Vec3 ℚ) : Option Voxel :=
  let h := mulPoint rasToIjk p
  let v : Voxel := ⟨pyRound h.x, pyRound h.y, pyRound h.z⟩
  if 0 ≤ v.i ∧ v.i < (arr.shape0 : ℤ) ∧
     0 ≤ v.j ∧ v.j < (arr.shape1 : ℤ) ∧
     0 ≤ v.k ∧ v.k < (arr.shape2 : ℤ) then
    some v
  else
    none

/-- Modelled from the spec (claim C4 wording, for comparison with rasToVoxel):
returns none exactly when some axis's rounded index is negative or at least
that axis's own atlas dimension — the i index is checked against the x
dimension (shape 2), the j index against the y dimension (shape 1) and the
k index against the z dimension (shape 0). -/
def rasToVoxelSpec (rasToIjk : Mat4 ℚ) (arr : AtlasArr) (p : Vec3 ℚ) : Option Voxel :=
  let h := mulPoint rasToIjk p
  let v : Voxel := ⟨pyRound h.x, pyRound h.y, pyRound h.z⟩
  if 0 ≤ v.i ∧ v.i < (arr.shape2 : ℤ) ∧
     0 ≤ v.j ∧ v.j < (arr.shape1 : ℤ) ∧
     0 ≤ v.k ∧ v.k < (arr.shape0 : ℤ) then
    some v
  else
    none

/-- _get_label_at_voxel of AtlasManager: read the label array at
position k, j, i; none models the IndexError numpy raises when an index is
out of range of the stored array. -/
def getLabelAtVoxel (arr : AtlasArr) (v : Voxel) : Option ℤ :=
  match npIndex arr.shape0 v.k, npIndex arr.shape1 v.j, npIndex arr.shape2 v.i with
  | some a, some b, some c => some (arr.data a b c)
  | _, _, _ => none

/-- One scene landmark point handed to _get_regions_for_points: a synthesized
name and RAS world coordinates. -/
structure MarkPoint where
  name : String
  coords : Vec3 ℚ
deriving DecidableEq

/-- One region hit produced by _get_regions_for_points. -/
structure RegionInfo where
  point_name : String
  coordinates : Vec3 ℚ
  voxel_coords : Voxel
  label_value : ℤ
deriving DecidableEq

/-- _get_regions_for_points of AtlasManager: walk the points in order; a point
whose voxel mapping is rejected by _ras_to_voxel is skipped, a point whose
label value is not strictly positive is skipped, every other point yields a
region record; an IndexError escaping from _get_label_at_voxel aborts the
whole call (modelled none). -/
def getRegionsForPoints (rasToIjk : Mat4 ℚ) (arr : AtlasArr) :
    List MarkPoint → Option (List RegionInfo)
  | [] => some []
  | pt :: rest =>
    match rasToVoxel rasToIjk arr pt.coords with
    | none => getRegionsForPoints rasToIjk arr rest
    | some v =>
      match getLabelAtVoxel arr v with
      | none => none
      | some lv =>
        if 0 < lv then
          (getRegionsForPoints rasToIjk arr rest).map
            (fun tail => ⟨pt.name, pt.coords, v, lv⟩ :: tail)
        else
          getRegionsForPoints rasToIjk arr rest

/-- Modelled from the spec (claim C7 wording, for comparison with
getRegionsForPoints): keep, in input order, exactly the points whose voxel
mapping is in bounds (per-axis bounds as in rasToVoxelSpec) and whose label
value is not 0. -/
def computeRegionHitsSpec (rasToIjk : Mat4 ℚ) (arr : AtlasArr)
    (pts : List MarkPoint) : List RegionInfo :=
  pts.filterMap fun pt =>
    match rasToVoxelSpec rasToIjk arr pt.coords with
    | none => none
    | some v =>
      let lv := arr.data v.k.toNat v.j.toNat v.i.toNat
      if lv ≠ 0 then some ⟨pt.name, pt.coords, v, lv⟩ else none

/-- The result of _get_regions_for_points described as a single filterMap:
keep, in input order, exactly the points accepted by rasToVoxel whose label
lookup succeeds with a strictly positive value (used to state the amended
claim C7). -/
def regionHitsOf (rasToIjk : Mat4 ℚ) (arr : AtlasArr)
    (pts : List MarkPoint) : List RegionInfo :=
  pts.filterMap fun pt =>
    (rasToVoxel rasToIjk arr pt.coords).bind fun v =>
      (getLabelAtVoxel arr v).bind fun lv =>
        if 0 < lv then some ⟨pt.name, pt.coords, v, lv⟩ else none

/-- _create_volume_from_labels of AtlasManager: None for an empty label set;
otherwise an array of zeros shaped like the atlas array in which, label by
label, every voxel carrying that atlas label is overwritten with 1. -/
def createVolumeFromLabels (labels : List ℤ) (arr : AtlasArr) : Option AtlasArr :=
  if labels = [] then none
  else
    some ⟨arr.shape0, arr.shape1, arr.shape2,
      labels.foldl
        (fun acc l => fun a b c => if arr.data a b c = l then 1 else acc a b c)
        (fun _ _ _ => 0)⟩

/-! ### Atlas selection state machine (atlas_manager.py) -/

/-- The AVAILABLE_ATLASES registry: atlas name to relative file name. -/
def AVAILABLE_ATLASES : List (String × String) :=
  [("AAL.seg.nrrd", "AAL.seg.nrrd"),
   ("BN_Atlas_246_2mm.seg.nrrd", "BN_Atlas_246_2mm.seg.nrrd")]

/-- The mutable fields of an AtlasManager instance. -/
structure AtlasState where
  plugin_path : String
  current_atlas_name : Option String
  atlas_path : Option String
  atlas_node : Option String
  atlas_node_arr : Option AtlasArr
  atlas_labels : List (ℤ × String)
  ras_to_ijk : Option (Mat4 ℚ)

/-- The AtlasManager constructor: templates under the plugin path, nothing
selected, nothing loaded. -/
def initAtlasState (plugin_path : String) : AtlasState :=
  ⟨plugin_path, none, none, none, none, [], none⟩

/-- Python truthiness of an optional string: None and the empty string are
falsy. -/
def falsyOptStr : Option String → Bool
  | none => true
  | some s => s.isEmpty

/-- clear_current_atlas of AtlasManager. -/
def clearCurrentAtlas (σ : AtlasState) : AtlasState :=
  { σ with atlas_node := none, atlas_node_arr := none, atlas_labels := [] }

/-- set_atlas of AtlasManager: an unknown name reports an error and returns
False with nothing touched; a known name records the name and the templates
path and, if atlas data is resident, clears it. The returned triple is the
Boolean result, the new state and the list of error messages displayed. -/
def set_atlas (atlas_name : String) (σ : AtlasState) :
    Bool × AtlasState × List String :=
  match AVAILABLE_ATLASES.lookup atlas_name with
  | none => (false, σ, ["Unknown atlas: " ++ atlas_name])
  | some atlas_filename =>
    let σ1 := { σ with
      current_atlas_name := some atlas_name,
      atlas_path := some (σ.plugin_path ++ "/templates/" ++ atlas_filename) }
    let σ2 := if σ1.atlas_node.isSome then clearCurrentAtlas σ1 else σ1
    (true, σ2, [])

/-- The host-scene collaborators consumed by load_atlas, passed explicitly:
file existence, lookup of an already loaded node by name, loading of the
segmentation node, and loading of the volume data (RAS-to-IJK matrix and
label array read in _load_atlas_volume_data). -/
structure SceneEnv where
  fileExists : String → Bool
  getFirstNodeByName : String → Option String
  loadSegmentation : String → Option String
  loadVolumeData : String → Mat4 ℚ × AtlasArr

/-- _load_atlas_volume_data of AtlasManager: load the volume at the atlas
path and store its RAS-to-IJK matrix and label array. -/
def loadAtlasVolumeData (env : SceneEnv) (σ : AtlasState) : AtlasState :=
  let d := env.loadVolumeData (σ.atlas_path.getD "")
  { σ with ras_to_ijk := some d.1, atlas_node_arr := some d.2 }

/-- The part of load_atlas after the optional set_atlas call: guard on a
selected atlas, guard on the backing file, reuse of an already resident
node, else load of the segmentation and of the volume data. -/
def loadAtlasCore (env : SceneEnv) (σ : AtlasState) (log : List String) :
    Option String × AtlasState × List String :=
  if falsyOptStr σ.current_atlas_name || falsyOptStr σ.atlas_path then
    (none, σ, log ++ ["No atlas selected. Please select an atlas first."])
  else if ¬ env.fileExists (σ.atlas_path.getD "") then
    (none, σ, log ++ ["Atlas file not found: " ++ σ.atlas_path.getD ""])
  else
    match env.getFirstNodeByName (σ.current_atlas_name.getD "") with
    | some existing =>
      let σ1 := loadAtlasVolumeData env { σ with atlas_node := some existing }
      (some existing, σ1, log)
    | none =>
      let seg := env.loadSegmentation (σ.atlas_path.getD "")
      let σ1 := loadAtlasVolumeData env { σ with atlas_node := seg }
      match seg with
      | some node => (some node, σ1, log)
      | none =>
        (none, σ1, log ++ ["Failed to load atlas file: " ++ σ.atlas_path.getD ""])

/-- load_atlas of AtlasManager: an explicitly passed truthy atlas name goes
through set_atlas first and a set_atlas failure aborts; then loadAtlasCore. -/
def load_atlas (env : SceneEnv) (atlas_name : Option String) (σ : AtlasState) :
    Option String × AtlasState × List String :=
  match atlas_name with
  | some n =>
    if n.isEmpty then loadAtlasCore env σ []
    else
      match set_atlas n σ with
      | (ok, σ1, log) =>
        if ok then loadAtlasCore env σ1 log else (none, σ1, log)
  | none => loadAtlasCore env σ []

/-! ### Transform algebra (math_utils.py), over exact reals -/

/-- Euclidean norm of a 3-vector (numpy linalg.norm). -/
noncomputable def normV (v : Vec3 ℝ) : ℝ :=
  Real.sqrt (v.x ^ 2 + v.y ^ 2 + v.z ^ 2)

/-- Division of a vector by its own norm (v / numpy linalg.norm(v)).
When the norm is zero numpy divides zero by zero and yields a vector of
NaNs, modelled none; every later use of a NaN value stays NaN, modelled by
Option bind. -/
noncomputable def normalizeOpt (v : Vec3 ℝ) : Option (Vec3 ℝ) :=
  if normV v = 0 then none else some (vdiv v (normV v))

/-- The skew-symmetric cross-product matrix K built by
create_rotation_matrix from the normalized axis. -/
def kmat (n : Vec3 ℝ) : Mat3 ℝ :=
  ⟨0, -n.z, n.y,
   n.z, 0, -n.x,
   -n.y, n.x, 0⟩

/-- The Rodrigues rotation block of create_rotation_matrix:
eye(3) + sin(angle) K + (1 - cos(angle)) K K, for an already normalized
axis n. -/
noncomputable def rodrigues3 (n : Vec3 ℝ) (angle : ℝ) : Mat3 ℝ :=
  mat3Add (mat3Add idMat3 (mat3Smul (Real.sin angle) (kmat n)))
    (mat3Smul (1 - Real.cos angle) (mat3Mul (kmat n) (kmat n)))

/-- create_rotation_matrix of math_utils.py: normalize the axis (NaN, hence
none, for the zero axis), build the Rodrigues block and embed it in a 4 by 4
identity. -/
noncomputable def createRotationMatrix (axis : Vec3 ℝ) (angle : ℝ) :
    Option (Mat4 ℝ) :=
  if normV axis = 0 then none
  else some (toMat4 (rodrigues3 (vdiv axis (normV axis)) angle))

/-- create_affine_matrix of math_utils.py: T translates ac to the origin; the
direction bc - ac is normalized (NaN, hence none, when bc = ac); its cross
product with the reference axis 0, -1, 0 picks the rotation axis; a nonzero
cross product rotates by arccos of the dot product, a zero cross product
keeps angle 0 about the fallback axis 0, 0, 1; the result is the product of
the rotation and the translation, rotate after translate. -/
noncomputable def createAffineMatrix (ac bc : Vec3 ℝ) : Option (Mat4 ℝ) :=
  let T := createTranslationMatrix (negV ac)
  match normalizeOpt (subV bc ac) with
  | none => none
  | some dn =>
    let yAxis : Vec3 ℝ := ⟨0, -1, 0⟩
    let axis := crossV dn yAxis
    let pr : Vec3 ℝ × ℝ :=
      if normV axis = 0 then (⟨0, 0, 1⟩, 0)
      else (vdiv axis (normV axis), Real.arccos (dotV dn yAxis))
    (createRotationMatrix pr.1 pr.2).map (fun R => matMul R T)

/-! ### Alignment session (image_alignment.py) -/

/-- A scene volume node as the alignment logic observes it: a stable node
identity and the baked voxel-to-world geometry; a geometry of none models a
NaN-contaminated geometry. -/
structure VolumeNode (α : Type) where
  vid : ℕ
  geom : Option (Mat4 α)
deriving DecidableEq

/-- The mutable state of an ImageAlignmentLogic instance: transform_table,
mapping a volume node id to the matrix currently stored in that volume's
transform node (none for a NaN matrix). -/
structure SessionState (α : Type) where
  table : List (ℕ × Option (Mat4 α))
deriving DecidableEq

/-- Store a value under a key in the transform table: replace the entry if
the key is present, append it otherwise. -/
def tableInsert {β : Type} (t : List (ℕ × β)) (k : ℕ) (v : β) : List (ℕ × β) :=
  if (t.lookup k).isSome then
    t.map (fun kv => if kv.1 = k then (k, v) else kv)
  else
    t ++ [(k, v)]

/-- The outcome of one alignment operation: the (possibly rebaked) target
volume, the new session state, and the error messages logged. -/
structure AlignResult (α : Type) where
  volume : Option (VolumeNode α)
  session : SessionState α
  log : List String
deriving DecidableEq

/-- Bake a composite matrix into a volume: hardenTransform premultiplies the
volume's geometry with the transform matrix; a NaN matrix or a NaN geometry
leaves the geometry NaN. -/
def bakeGeom [Mul α] [Add α] (composite : Option (Mat4 α))
    (g : Option (Mat4 α)) : Option (Mat4 α) :=
  composite.bind fun c => g.map fun m => matMul c m

/-- translate_ac of ImageAlignmentLogic: a missing target volume logs an
error and returns with nothing changed; otherwise the existing matrix read
for the composition is a fresh identity in both branches of the
transform-table test, the candidate matrix is the translation by the negated
point, the composite candidate times identity is stored in the volume's
transform node and baked into the volume. The markup argument is a host
scene marker baked alongside; its coordinates live outside the modelled
state. -/
def translateAc {α : Type} [Zero α] [One α] [Neg α] [Mul α] [Add α]
    (ac : Vec3 α) (target : Option (VolumeNode α)) (_markup : Option Unit)
    (σ : SessionState α) : AlignResult α :=
  match target with
  | none => ⟨none, σ, ["translate_ac: Invalid input node"]⟩
  | some v =>
    let existing : Mat4 α := idMat4
    let affine := createTranslationMatrix (negV ac)
    let composite := matMul affine existing
    let σ1 : SessionState α := ⟨tableInsert σ.table v.vid (some composite)⟩
    ⟨some { v with geom := bakeGeom (some composite) v.geom }, σ1, []⟩

/-- transform_acpc of ImageAlignmentLogic: a missing target volume logs an
error and returns with nothing changed; otherwise the candidate matrix is
create_affine_matrix of the AC and PC points (NaN when they coincide), and
composite, store, bake proceed as in translate_ac. -/
noncomputable def transformAcpc (ac pc : Vec3 ℝ)
    (target : Option (VolumeNode ℝ)) (_markups : List (Option Unit))
    (σ : SessionState ℝ) : AlignResult ℝ :=
  match target with
  | none => ⟨none, σ, ["transform_acpc: Invalid input node"]⟩
  | some v =>
    let existing : Mat4 ℝ := idMat4
    let composite := (createAffineMatrix ac pc).map (fun M => matMul M existing)
    let σ1 : SessionState ℝ := ⟨tableInsert σ.table v.vid composite⟩
    ⟨some { v with geom := bakeGeom composite v.geom }, σ1, []⟩

/-- transform_lr of ImageAlignmentLogic: the source reads
target_node.GetID() before any guard, so a missing target volume raises
AttributeError (modelled Except.error) with nothing logged and nothing
changed; otherwise the direction right minus left is normalized (NaN when
the points coincide), its cross product with the reference axis -1, 0, 0
picks the rotation axis exactly as in create_affine_matrix, and the
resulting pure rotation is composed, stored and baked as in the other two
operations. -/
noncomputable def transformLr (left right : Vec3 ℝ)
    (target : Option (VolumeNode ℝ)) (_markups : List (Option Unit))
    (σ : SessionState ℝ) : Except String (AlignResult ℝ) :=
  match target with
  | none => .error "AttributeError: NoneType object has no attribute GetID"
  | some v =>
    let existing : Mat4 ℝ := idMat4
    let composite : Option (Mat4 ℝ) :=
      (normalizeOpt (subV right left)).bind fun dn =>
        let xAxis : Vec3 ℝ := ⟨-1, 0, 0⟩
        let axis := crossV dn xAxis
        let pr : Vec3 ℝ × ℝ :=
          if normV axis = 0 then (⟨0, 0, 1⟩, 0)
          else (vdiv axis (normV axis), Real.arccos (dotV dn xAxis))
        (createRotationMatrix pr.1 pr.2).map (fun R => matMul R existing)
    let σ1 : SessionState ℝ := ⟨tableInsert σ.table v.vid composite⟩
    .ok ⟨some { v with geom := bakeGeom composite v.geom }, σ1, []⟩

/-! ### Theorems -/

/-- Every masked fold step of _create_volume_from_labels: after folding a
label list over the zero array, a voxel holds 1 exactly when its atlas label
is in the list, and the initial value otherwise. -/
theorem maskFold_apply (arr : AtlasArr) (labels : List ℤ) (f : ℕ → ℕ → ℕ → ℤ)
    (a b c : ℕ) :
    (labels.foldl
        (fun acc l => fun a' b' c' => if arr.data a' b' c' = l then 1 else acc a' b' c')
        f) a b c
      = if arr.data a b c ∈ labels then 1 else f a b c := by
  induction labels generalizing f with
  | nil => simp
  | cons l ls ih =>
    rw [List.foldl_cons, ih]
    by_cases hmem : arr.data a b c ∈ ls
    · simp [hmem]
    · by_cases heq : arr.data a b c = l <;> simp [hmem, heq]

/-- Multiplying on the right by the 4 by 4 identity changes nothing. -/
theorem matMul_idMat4_right {α : Type} [CommRing α] (A : Mat4 α) :
    matMul A idMat4 = A := by
  cases A
  simp [matMul, idMat4]

/-- Multiplying on the left by the 4 by 4 identity changes nothing. -/
theorem matMul_idMat4_left {α : Type} [CommRing α] (A : Mat4 α) :
    matMul idMat4 A = A := by
  cases A
  simp [matMul, idMat4]

/-- Composing the translation by the negation of p with itself translates by
the negation of p twice over. -/
theorem translation_negV_sq (p : Vec3 ℚ) :
    matMul (createTranslationMatrix (negV p)) (createTranslationMatrix (negV p))
      = createTranslationMatrix ⟨-p.x + -p.x, -p.y + -p.y, -p.z + -p.z⟩ := by
  simp [matMul, createTranslationMatrix, negV]

/-- The Euclidean norm vanishes exactly on the zero vector. -/
theorem normV_eq_zero_iff (v : Vec3 ℝ) : normV v = 0 ↔ v = ⟨0, 0, 0⟩ := by
  obtain ⟨a, b, c⟩ := v
  unfold normV
  rw [Real.sqrt_eq_zero (by positivity)]
  constructor
  · intro h
    simp only [Vec3.mk.injEq]
    refine ⟨?_, ?_, ?_⟩ <;> nlinarith [sq_nonneg a, sq_nonneg b, sq_nonneg c]
  · intro h
    obtain ⟨rfl, rfl, rfl⟩ := Vec3.mk.injEq .. |>.mp h
    norm_num

/-- The squared norm is the sum of the squared components. -/
theorem sq_normV (v : Vec3 ℝ) : normV v ^ 2 = v.x ^ 2 + v.y ^ 2 + v.z ^ 2 :=
  Real.sq_sqrt (by positivity)

/-- A vector whose squared components sum to one has norm one. -/
theorem normV_of_unit (u : Vec3 ℝ) (hu : u.x ^ 2 + u.y ^ 2 + u.z ^ 2 = 1) :
    normV u = 1 := by
  unfold normV
  rw [hu]
  exact Real.sqrt_one

/-- The components of a vector divided by its nonzero norm have squares
summing to one. -/
theorem normV_unit_sq (v : Vec3 ℝ) (h : normV v ≠ 0) :
    (v.x / normV v) ^ 2 + (v.y / normV v) ^ 2 + (v.z / normV v) ^ 2 = 1 := by
  have hs : normV v ^ 2 = v.x ^ 2 + v.y ^ 2 + v.z ^ 2 := sq_normV v
  field_simp
  linarith [hs]

/-- Dividing a vector by its nonzero norm yields a unit vector. -/
theorem normV_vdiv_self (v : Vec3 ℝ) (h : normV v ≠ 0) :
    normV (vdiv v (normV v)) = 1 :=
  normV_of_unit _ (by simpa [vdiv] using normV_unit_sq v h)

/-- Dividing a vector by one changes nothing. -/
theorem vdiv_one (v : Vec3 ℝ) : vdiv v 1 = v := by
  simp [vdiv]

/-- The Rodrigues block at angle zero is the identity, whatever the axis. -/
theorem rodrigues3_zero (n : Vec3 ℝ) : rodrigues3 n 0 = idMat3 := by
  simp [rodrigues3, Real.sin_zero, Real.cos_zero, mat3Smul, mat3Add, mat3Mul,
    kmat, idMat3]

/-- Embedding the 3 by 3 identity yields the 4 by 4 identity. -/
theorem toMat4_idMat3 : toMat4 (idMat3 : Mat3 ℝ) = idMat4 := rfl

/-- create_rotation_matrix at angle zero about any nonzero axis is the 4 by 4
identity (shared computation behind claims C9, C3 and C5). -/
theorem rotation_zero_angle_id (a : Vec3 ℝ) (h : a ≠ ⟨0, 0, 0⟩) :
    createRotationMatrix a 0 = some idMat4 := by
  have hn : normV a ≠ 0 := fun h0 => h ((normV_eq_zero_iff a).1 h0)
  simp [createRotationMatrix, hn, rodrigues3_zero, toMat4_idMat3]

/-- Claim C1: translate_ac and transform_acpc called with a missing volume
log an error and return with the session state unchanged and no exception;
transform_lr called with a missing volume instead raises AttributeError
(it reads the id of the missing node before any guard), which the claim
says cannot happen — the code lacks the guard its two sibling operations
have. -/
theorem alignment_missing_volume_guard (ac pc l r : Vec3 ℝ) (mk : Option Unit)
    (mks : List (Option Unit)) (σ : SessionState ℝ) :
    translateAc ac none mk σ = ⟨none, σ, ["translate_ac: Invalid input node"]⟩ ∧
    transformAcpc ac pc none mks σ
      = ⟨none, σ, ["transform_acpc: Invalid input node"]⟩ ∧
    transformLr l r none mks σ
      = .error "AttributeError: NoneType object has no attribute GetID" :=
  ⟨rfl, rfl, rfl⟩

/-- Counterexample to claim C2: translating volume 0 (identity geometry) to
put the point 1, 0, 0 at the origin and then calling the same operation
again with the same point bakes the translation twice — the final geometry
differs from the single call's. -/
theorem translateAc_not_idempotent_cex :
    (translateAc (⟨1, 0, 0⟩ : Vec3 ℚ)
        (translateAc ⟨1, 0, 0⟩ (some ⟨0, some idMat4⟩) none ⟨[]⟩).volume none
        (translateAc ⟨1, 0, 0⟩ (some ⟨0, some idMat4⟩) none ⟨[]⟩).session).volume
      ≠ (translateAc (⟨1, 0, 0⟩ : Vec3 ℚ) (some ⟨0, some idMat4⟩) none ⟨[]⟩).volume := by
  norm_num [translateAc, bakeGeom, tableInsert, createTranslationMatrix, negV,
    matMul, idMat4, VolumeNode.mk.injEq, Mat4.mk.injEq]

/-- Doubling the translation by the negated p is invisible exactly when p is
the origin. -/
theorem translation_self_iff (p : Vec3 ℚ) :
    (createTranslationMatrix ⟨-p.x + -p.x, -p.y + -p.y, -p.z + -p.z⟩
        = createTranslationMatrix (negV p)) ↔ p = ⟨0, 0, 0⟩ := by
  cases p
  simp only [createTranslationMatrix, negV, Mat4.mk.injEq, Vec3.mk.injEq,
    true_and, and_true]
  constructor
  · rintro ⟨h1, h2, h3⟩
    exact ⟨by linarith, by linarith, by linarith⟩
  · rintro ⟨rfl, rfl, rfl⟩
    norm_num

/-- Claim C2 amended: each call of translate_ac bakes the translation by the
negated point into the volume anew, so two calls with the same point compose
the translation with itself; the result of calling twice equals the result
of calling once exactly when the point is the origin (stated here for a
volume with identity geometry). -/
theorem translateAc_twice_characterization (p : Vec3 ℚ) (v : VolumeNode ℚ)
    (mk : Option Unit) (σ : SessionState ℚ) (G : Mat4 ℚ) (h : v.geom = some G) :
    (translateAc p ((translateAc p (some v) mk σ).volume) mk
        ((translateAc p (some v) mk σ).session)).volume
      = some ⟨v.vid, some (matMul (createTranslationMatrix (negV p))
          (matMul (createTranslationMatrix (negV p)) G))⟩ ∧
    (G = idMat4 →
      (((translateAc p ((translateAc p (some v) mk σ).volume) mk
            ((translateAc p (some v) mk σ).session)).volume
          = (translateAc p (some v) mk σ).volume) ↔ p = ⟨0, 0, 0⟩)) := by
  constructor
  · simp [translateAc, bakeGeom, h, matMul_idMat4_right]
  · intro hG
    subst hG
    simp only [translateAc, bakeGeom, h, Option.some_bind, Option.map_some',
      Option.some.injEq, VolumeNode.mk.injEq, true_and]
    simp only [matMul_idMat4_right, translation_negV_sq]
    exact translation_self_iff p

/-- Witness for the amended claim C2 at the point 1, 0, 0 and a volume with
identity geometry. -/
theorem translateAc_twice_characterization_witness :
    (translateAc (⟨1, 0, 0⟩ : Vec3 ℚ)
        ((translateAc ⟨1, 0, 0⟩ (some ⟨0, some idMat4⟩) none ⟨[]⟩).volume) none
        ((translateAc ⟨1, 0, 0⟩ (some ⟨0, some idMat4⟩) none ⟨[]⟩).session)).volume
      = some ⟨0, some (matMul (createTranslationMatrix (negV ⟨1, 0, 0⟩))
          (matMul (createTranslationMatrix (negV ⟨1, 0, 0⟩)) idMat4))⟩ ∧
    (idMat4 = (idMat4 : Mat4 ℚ) →
      (((translateAc (⟨1, 0, 0⟩ : Vec3 ℚ)
            ((translateAc ⟨1, 0, 0⟩ (some ⟨0, some idMat4⟩) none ⟨[]⟩).volume) none
            ((translateAc ⟨1, 0, 0⟩ (some ⟨0, some idMat4⟩) none ⟨[]⟩).session)).volume
          = (translateAc (⟨1, 0, 0⟩ : Vec3 ℚ) (some ⟨0, some idMat4⟩) none ⟨[]⟩).volume)
        ↔ (⟨1, 0, 0⟩ : Vec3 ℚ) = ⟨0, 0, 0⟩)) :=
  translateAc_twice_characterization ⟨1, 0, 0⟩ ⟨0, some idMat4⟩ none ⟨[]⟩ idMat4 rfl

/-- Claim C4: the bounds check of _ras_to_voxel compares the rounded i, j, k
indices against the numpy shape, which lists the dimensions in z, y, x
order. On a non-cubic atlas of shape 2, 5, 5 (z size 2, x size 5) the world
point 1, 0, 4 under the identity matrix is accepted although its k index 4
is beyond the z dimension 2 — the claim's per-axis bound (rasToVoxelSpec)
rejects it — and the subsequent label lookup raises IndexError. -/
theorem rasToVoxel_axis_mismatch_bug :
    rasToVoxel idMat4 ⟨2, 5, 5, fun _ _ _ => 7⟩ ⟨1, 0, 4⟩ = some ⟨1, 0, 4⟩ ∧
    rasToVoxelSpec idMat4 ⟨2, 5, 5, fun _ _ _ => 7⟩ ⟨1, 0, 4⟩ = none ∧
    getLabelAtVoxel ⟨2, 5, 5, fun _ _ _ => 7⟩ ⟨1, 0, 4⟩ = none := by
  refine ⟨?_, ?_, ?_⟩
  · norm_num [rasToVoxel, mulPoint, idMat4, pyRound]
  · norm_num [rasToVoxelSpec, mulPoint, idMat4, pyRound]
  · decide

/-- Claim C6: _create_volume_from_labels returns None for an empty label
set; for a non-empty label set it returns an array shaped like the atlas in
which a voxel is 1 exactly when its atlas label belongs to the label set and
0 otherwise. -/
theorem createVolumeFromLabels_spec (labels : List ℤ) (arr : AtlasArr) :
    (labels = [] → createVolumeFromLabels labels arr = none) ∧
    (labels ≠ [] → ∃ m, createVolumeFromLabels labels arr = some m ∧
      m.shape0 = arr.shape0 ∧ m.shape1 = arr.shape1 ∧ m.shape2 = arr.shape2 ∧
      ∀ a b c, m.data a b c = if arr.data a b c ∈ labels then 1 else 0) := by
  constructor
  · intro h
    simp [createVolumeFromLabels, h]
  · intro h
    simp only [createVolumeFromLabels, if_neg h]
    refine ⟨_, rfl, rfl, rfl, rfl, ?_⟩
    intro a b c
    exact maskFold_apply arr labels (fun _ _ _ => 0) a b c

/-- Witness for claim C6 at the one-voxel atlas holding label 5 and the
label set containing only 5. -/
theorem createVolumeFromLabels_spec_witness :
    (([5] : List ℤ) = [] →
      createVolumeFromLabels [5] ⟨1, 1, 1, fun _ _ _ => 5⟩ = none) ∧
    (([5] : List ℤ) ≠ [] →
      ∃ m, createVolumeFromLabels [5] ⟨1, 1, 1, fun _ _ _ => 5⟩ = some m ∧
        m.shape0 = 1 ∧ m.shape1 = 1 ∧ m.shape2 = 1 ∧
        ∀ a b c, m.data a b c = if (5 : ℤ) ∈ ([5] : List ℤ) then 1 else 0) :=
  createVolumeFromLabels_spec [5] ⟨1, 1, 1, fun _ _ _ => 5⟩

/-- Counterexample to claim C7: on a one-voxel atlas whose label is -1, the
point at the origin maps in bounds and its label is not 0, so the claim
includes it in the result; the code tests label_value strictly greater than
0 and excludes it. -/
theorem getRegionsForPoints_negative_label_cex :
    getRegionsForPoints idMat4 ⟨1, 1, 1, fun _ _ _ => -1⟩
        [⟨"ROI_01_0", ⟨0, 0, 0⟩⟩] = some [] ∧
    computeRegionHitsSpec idMat4 ⟨1, 1, 1, fun _ _ _ => -1⟩
        [⟨"ROI_01_0", ⟨0, 0, 0⟩⟩]
      = [⟨"ROI_01_0", ⟨0, 0, 0⟩, ⟨0, 0, 0⟩, -1⟩] := by
  constructor
  · norm_num [getRegionsForPoints, rasToVoxel, mulPoint, idMat4, pyRound,
      getLabelAtVoxel, npIndex]
  · norm_num [computeRegionHitsSpec, rasToVoxelSpec, mulPoint, idMat4, pyRound,
      List.filterMap_cons]

/-- Claim C7 amended: whenever _get_regions_for_points completes without an
IndexError (it can raise one through _get_label_at_voxel on a non-cubic
atlas, see claim C4), it returns, in input order and without deduplication
by label, exactly the points accepted by the code's bounds check whose label
value is strictly positive — a label of 0, but also any negative label, is
excluded — and hence at most as many entries as input points. -/
theorem getRegionsForPoints_filter (M : Mat4 ℚ) (arr : AtlasArr)
    (pts : List MarkPoint) (l : List RegionInfo)
    (h : getRegionsForPoints M arr pts = some l) :
    l = regionHitsOf M arr pts ∧ l.length ≤ pts.length := by
  induction pts generalizing l with
  | nil =>
    simp only [getRegionsForPoints, Option.some.injEq] at h
    subst h
    simp [regionHitsOf]
  | cons pt rest ih =>
    rw [getRegionsForPoints] at h
    cases hv : rasToVoxel M arr pt.coords with
    | none =>
      rw [hv] at h
      dsimp only at h
      obtain ⟨h1, h2⟩ := ih l h
      refine ⟨?_, Nat.le_succ_of_le h2⟩
      simpa [regionHitsOf, List.filterMap_cons, hv] using h1
    | some v =>
      rw [hv] at h
      dsimp only at h
      cases hl : getLabelAtVoxel arr v with
      | none =>
        rw [hl] at h
        exact absurd h (by simp)
      | some lv =>
        rw [hl] at h
        dsimp only at h
        by_cases hpos : 0 < lv
        · rw [if_pos hpos] at h
          cases hrec : getRegionsForPoints M arr rest with
          | none =>
            rw [hrec] at h
            exact absurd h (by simp)
          | some tail =>
            rw [hrec] at h
            simp only [Option.map_some', Option.some.injEq] at h
            obtain ⟨h1, h2⟩ := ih tail hrec
            subst h
            constructor
            · simp [regionHitsOf, List.filterMap_cons, hv, hl, if_pos hpos, ← h1,
                regionHitsOf] at *
              simpa [regionHitsOf] using h1
            · simpa using Nat.succ_le_succ h2
        · rw [if_neg hpos] at h
          obtain ⟨h1, h2⟩ := ih l h
          refine ⟨?_, Nat.le_succ_of_le h2⟩
          simpa [regionHitsOf, List.filterMap_cons, hv, hl, if_neg hpos] using h1

/-- Witness for the amended claim C7 at a one-voxel atlas with label 5 and
one point at the origin. -/
theorem getRegionsForPoints_filter_witness :
    ([⟨"ROI_01_0", ⟨0, 0, 0⟩, ⟨0, 0, 0⟩, (5 : ℤ)⟩] : List RegionInfo)
        = regionHitsOf idMat4 ⟨1, 1, 1, fun _ _ _ => 5⟩ [⟨"ROI_01_0", ⟨0, 0, 0⟩⟩] ∧
    ([⟨"ROI_01_0", ⟨0, 0, 0⟩, ⟨0, 0, 0⟩, (5 : ℤ)⟩] : List RegionInfo).length
        ≤ [(⟨"ROI_01_0", ⟨0, 0, 0⟩⟩ : MarkPoint)].length :=
  getRegionsForPoints_filter idMat4 ⟨1, 1, 1, fun _ _ _ => 5⟩
    [⟨"ROI_01_0", ⟨0, 0, 0⟩⟩] [⟨"ROI_01_0", ⟨0, 0, 0⟩, ⟨0, 0, 0⟩, 5⟩]
    (by norm_num [getRegionsForPoints, rasToVoxel, mulPoint, idMat4, pyRound,
      getLabelAtVoxel, npIndex])

/-- Claim C8: set_atlas with an unknown name reports the error and returns
False with the manager state untouched, and load_atlas without an argument
while no atlas was ever selected reports the selection error and returns
None with the manager state untouched — it never reaches the loading code. -/
theorem atlas_unknown_select_then_load_fails (env : SceneEnv) (σ : AtlasState)
    (name : String) (h1 : AVAILABLE_ATLASES.lookup name = none)
    (h2 : σ.current_atlas_name = none) :
    set_atlas name σ = (false, σ, ["Unknown atlas: " ++ name]) ∧
    load_atlas env none σ
      = (none, σ, ["No atlas selected. Please select an atlas first."]) := by
  constructor
  · simp [set_atlas, h1]
  · simp [load_atlas, loadAtlasCore, falsyOptStr, h2]

/-- Witness for claim C8: the freshly constructed manager and the name
unknown. -/
theorem atlas_unknown_select_then_load_fails_witness :
    set_atlas "unknown" (initAtlasState "plugin")
      = (false, initAtlasState "plugin", ["Unknown atlas: " ++ "unknown"]) ∧
    load_atlas ⟨fun _ => false, fun _ => none, fun _ => none,
        fun _ => (idMat4, ⟨1, 1, 1, fun _ _ _ => 0⟩)⟩ none (initAtlasState "plugin")
      = (none, initAtlasState "plugin",
          ["No atlas selected. Please select an atlas first."]) :=
  atlas_unknown_select_then_load_fails _ _ _ (by decide) rfl

/-- Claim C10: set_atlas with a valid name while loaded atlas data is
resident clears the loaded data and leaves the manager selected for that
name — the clearing does not test whether the name changed, so it happens
even when the name equals the currently selected one (the witness below
uses the same name). -/
theorem set_atlas_clears_resident_data (σ : AtlasState) (name fname node : String)
    (h1 : AVAILABLE_ATLASES.lookup name = some fname)
    (h2 : σ.atlas_node = some node) :
    set_atlas name σ = (true,
      { σ with current_atlas_name := some name,
               atlas_path := some (σ.plugin_path ++ "/templates/" ++ fname),
               atlas_node := none, atlas_node_arr := none, atlas_labels := [] },
      []) := by
  cases σ
  simp_all [set_atlas, clearCurrentAtlas]

/-- Witness for claim C10: re-selecting the already selected and resident
AAL atlas still clears the loaded data. -/
theorem set_atlas_clears_resident_data_witness :
    set_atlas "AAL.seg.nrrd"
      ⟨"plugin", some "AAL.seg.nrrd", some "plugin/templates/AAL.seg.nrrd",
        some "nodeA", some ⟨1, 1, 1, fun _ _ _ => 0⟩, [(1, "region")], none⟩
      = (true,
        ⟨"plugin", some "AAL.seg.nrrd", some ("plugin" ++ "/templates/" ++ "AAL.seg.nrrd"),
          none, none, [], none⟩,
        []) :=
  set_atlas_clears_resident_data
    ⟨"plugin", some "AAL.seg.nrrd", some "plugin/templates/AAL.seg.nrrd",
      some "nodeA", some ⟨1, 1, 1, fun _ _ _ => 0⟩, [(1, "region")], none⟩
    "AAL.seg.nrrd" "AAL.seg.nrrd" "nodeA" (by decide) rfl

/-- Claim C9: for every nonzero axis, create_rotation_matrix at angle zero
is the 4 by 4 identity matrix — identity rotation block, zero translation
column, bottom row 0, 0, 0, 1. -/
theorem createRotationMatrix_zero_angle (a : Vec3 ℝ) (h : a ≠ ⟨0, 0, 0⟩) :
    createRotationMatrix a 0 = some idMat4 :=
  rotation_zero_angle_id a h

/-- Witness for claim C9 at the z axis. -/
theorem createRotationMatrix_zero_angle_witness :
    createRotationMatrix ⟨0, 0, 1⟩ 0 = some idMat4 :=
  createRotationMatrix_zero_angle ⟨0, 0, 1⟩
    (fun h => by simpa using congrArg Vec3.z h)

/-- Counterexample to claim C3: create_affine_matrix of a point with itself
normalizes the zero direction vector, dividing zero by zero; numpy produces
a matrix of NaNs (modelled none), not the claimed pure translation with
identity rotation. -/
theorem createAffineMatrix_coincident_cex :
    createAffineMatrix ⟨0, 0, 0⟩ ⟨0, 0, 0⟩
        ≠ some (createTranslationMatrix (negV ⟨0, 0, 0⟩)) ∧
    createAffineMatrix ⟨0, 0, 0⟩ ⟨0, 0, 0⟩ = none := by
  have hz : normV (subV (⟨0, 0, 0⟩ : Vec3 ℝ) ⟨0, 0, 0⟩) = 0 := by
    simp [normV, subV]
  have h2 : createAffineMatrix ⟨0, 0, 0⟩ ⟨0, 0, 0⟩ = none := by
    simp [createAffineMatrix, normalizeOpt, hz]
  exact ⟨by simp [h2], h2⟩

/-- Claim C3 amended: create_affine_matrix of a point with itself divides by
the zero norm of the zero direction and yields a NaN matrix (modelled none),
not a pure translation; the deterministic no-rotation degenerate branch
applies instead to a nonzero direction parallel to the reference axis
0, -1, 0, where the result is exactly the pure translation of the from
point to the origin with identity rotation block. -/
theorem createAffineMatrix_degenerate (ac bc : Vec3 ℝ)
    (hx : (subV bc ac).x = 0) (hz0 : (subV bc ac).z = 0)
    (hy : (subV bc ac).y ≠ 0) :
    createAffineMatrix ac ac = none ∧
    createAffineMatrix ac bc = some (createTranslationMatrix (negV ac)) := by
  constructor
  · have hz : normV (subV ac ac) = 0 := by
      simp [normV, subV]
    simp [createAffineMatrix, normalizeOpt, hz]
  · have hnd : normV (subV bc ac) ≠ 0 := by
      unfold normV
      rw [hx, hz0]
      have harg : (0 : ℝ) ^ 2 + (subV bc ac).y ^ 2 + 0 ^ 2 = (subV bc ac).y ^ 2 := by
        ring
      rw [harg, Real.sqrt_sq_eq_abs]
      simpa using hy
    have hu : normalizeOpt (subV bc ac)
        = some (vdiv (subV bc ac) (normV (subV bc ac))) := by
      simp [normalizeOpt, hnd]
    have hux : (vdiv (subV bc ac) (normV (subV bc ac))).x = 0 := by
      simp [vdiv, hx]
    have huz : (vdiv (subV bc ac) (normV (subV bc ac))).z = 0 := by
      simp [vdiv, hz0]
    have hcross : crossV (vdiv (subV bc ac) (normV (subV bc ac))) ⟨0, -1, 0⟩
        = ⟨0, 0, 0⟩ := by
      simp [crossV, hux, huz]
    have hnaxis :
        normV (crossV (vdiv (subV bc ac) (normV (subV bc ac))) ⟨0, -1, 0⟩) = 0 := by
      rw [hcross]
      simp [normV]
    have hrot : createRotationMatrix (⟨0, 0, 1⟩ : Vec3 ℝ) 0 = some idMat4 :=
      rotation_zero_angle_id ⟨0, 0, 1⟩ (fun h => by simpa using congrArg Vec3.z h)
    simp only [createAffineMatrix, hu]
    rw [if_pos hnaxis, hrot]
    simp only [Option.map_some', Option.some.injEq]
    exact matMul_idMat4_left _

/-- Witness for the amended claim C3: from point 1, 2, 3 toward 1, 5, 3 — a
direction of length 3 along the reference axis. -/
theorem createAffineMatrix_degenerate_witness :
    createAffineMatrix ⟨1, 2, 3⟩ ⟨1, 2, 3⟩ = none ∧
    createAffineMatrix ⟨1, 2, 3⟩ ⟨1, 5, 3⟩
      = some (createTranslationMatrix (negV ⟨1, 2, 3⟩)) :=
  createAffineMatrix_degenerate ⟨1, 2, 3⟩ ⟨1, 5, 3⟩
    (by norm_num [subV]) (by norm_num [subV]) (by norm_num [subV])

set_option maxHeartbeats 2000000 in
/-- Core Rodrigues computation: for a unit vector u whose cross product with
the reference axis 0, -1, 0 is nonzero, the rotation block built by
create_affine_matrix — axis the normalized cross product, angle the arccos
of the dot product — maps u onto the reference axis. -/
theorem rodrigues_rotates_to_yneg (u : Vec3 ℝ)
    (hu : u.x ^ 2 + u.y ^ 2 + u.z ^ 2 = 1)
    (hax : crossV u ⟨0, -1, 0⟩ ≠ ⟨0, 0, 0⟩) :
    mulVec3 (rodrigues3 (vdiv (crossV u ⟨0, -1, 0⟩) (normV (crossV u ⟨0, -1, 0⟩)))
        (Real.arccos (dotV u ⟨0, -1, 0⟩))) u = ⟨0, -1, 0⟩ := by
  obtain ⟨ux, uy, uz⟩ := u
  have hcross : crossV ⟨ux, uy, uz⟩ (⟨0, -1, 0⟩ : Vec3 ℝ) = ⟨uz, 0, -ux⟩ := by
    unfold crossV
    simp only [Vec3.mk.injEq]
    refine ⟨by ring, by ring, by ring⟩
  rw [hcross] at hax ⊢
  have hdot : dotV (⟨ux, uy, uz⟩ : Vec3 ℝ) (⟨0, -1, 0⟩ : Vec3 ℝ) = -uy := by
    unfold dotV
    ring
  rw [hdot]
  have hne : ¬(ux = 0 ∧ uz = 0) := by
    rintro ⟨h1, h2⟩
    exact hax (by rw [h1, h2]; simp)
  have hnormc : normV (⟨uz, 0, -ux⟩ : Vec3 ℝ) = Real.sqrt (ux ^ 2 + uz ^ 2) := by
    show Real.sqrt (uz ^ 2 + 0 ^ 2 + (-ux) ^ 2) = Real.sqrt (ux ^ 2 + uz ^ 2)
    rw [show uz ^ 2 + (0 : ℝ) ^ 2 + (-ux) ^ 2 = ux ^ 2 + uz ^ 2 from by ring]
  rw [hnormc]
  set t := Real.sqrt (ux ^ 2 + uz ^ 2) with ht_def
  have ht_sq : t ^ 2 = ux ^ 2 + uz ^ 2 := Real.sq_sqrt (by positivity)
  have ht_ne : t ≠ 0 := by
    intro h0
    rw [h0] at ht_sq
    have hx0 : ux = 0 := by nlinarith [sq_nonneg ux, sq_nonneg uz]
    have hz0 : uz = 0 := by nlinarith [sq_nonneg ux, sq_nonneg uz]
    exact hne ⟨hx0, hz0⟩
  have hcos : Real.cos (Real.arccos (-uy)) = -uy :=
    Real.cos_arccos (by nlinarith [sq_nonneg ux, sq_nonneg uz])
      (by nlinarith [sq_nonneg ux, sq_nonneg uz])
  have hsin : Real.sin (Real.arccos (-uy)) = t := by
    rw [Real.sin_arccos,
      show 1 - (-uy) ^ 2 = ux ^ 2 + uz ^ 2 from by linear_combination -hu]
  unfold rodrigues3 kmat mat3Mul mat3Add mat3Smul idMat3 mulVec3 vdiv
  rw [hsin, hcos]
  simp only [Vec3.mk.injEq]
  refine ⟨?_, ?_, ?_⟩
  · field_simp
    linear_combination (ux * (1 + uy)) * ht_sq
  · field_simp
    linear_combination (t ^ 4 * (1 + uy - ux ^ 2 - uz ^ 2)) * ht_sq
      - (t ^ 4 * (ux ^ 2 + uz ^ 2)) * hu
  · field_simp
    linear_combination (uz * (1 + uy)) * ht_sq

/-- Claim C5: for distinct points, create_affine_matrix is the product
R times T — rotate after translate — where T sends the from point to the
origin, and the rotation block R maps the normalized direction vector onto
the canonical posterior axis 0, -1, 0 whenever their cross product is
nonzero; with a zero cross product (direction parallel to the axis) no
rotation is applied and R is the identity. -/
theorem createAffineMatrix_rotates (ac bc : Vec3 ℝ)
    (h : subV bc ac ≠ ⟨0, 0, 0⟩) :
    ∃ R : Mat3 ℝ,
      createAffineMatrix ac bc
          = some (matMul (toMat4 R) (createTranslationMatrix (negV ac))) ∧
      mulPoint (createTranslationMatrix (negV ac)) ac = ⟨0, 0, 0⟩ ∧
      (crossV (vdiv (subV bc ac) (normV (subV bc ac))) ⟨0, -1, 0⟩ ≠ ⟨0, 0, 0⟩ →
        mulVec3 R (vdiv (subV bc ac) (normV (subV bc ac))) = ⟨0, -1, 0⟩) ∧
      (crossV (vdiv (subV bc ac) (normV (subV bc ac))) ⟨0, -1, 0⟩ = ⟨0, 0, 0⟩ →
        R = idMat3) := by
  have hnd : normV (subV bc ac) ≠ 0 := fun h0 => h ((normV_eq_zero_iff _).1 h0)
  have hnorm : normalizeOpt (subV bc ac)
      = some (vdiv (subV bc ac) (normV (subV bc ac))) := by
    simp [normalizeOpt, hnd]
  have htrans : mulPoint (createTranslationMatrix (negV ac)) ac = ⟨0, 0, 0⟩ := by
    unfold mulPoint createTranslationMatrix negV
    simp only [Vec3.mk.injEq]
    refine ⟨by ring, by ring, by ring⟩
  set u := vdiv (subV bc ac) (normV (subV bc ac)) with hu_def
  by_cases hcr : crossV u ⟨0, -1, 0⟩ = ⟨0, 0, 0⟩
  · refine ⟨idMat3, ?_, htrans, fun hc => absurd hcr hc, fun _ => rfl⟩
    have hnaxis : normV (crossV u ⟨0, -1, 0⟩) = 0 := by
      rw [hcr]
      simp [normV]
    have hrot : createRotationMatrix (⟨0, 0, 1⟩ : Vec3 ℝ) 0 = some idMat4 :=
      rotation_zero_angle_id _ (fun hh => by simpa using congrArg Vec3.z hh)
    simp only [createAffineMatrix, hnorm]
    rw [if_pos hnaxis, hrot]
    simp only [Option.map_some', Option.some.injEq]
    rw [toMat4_idMat3]
  · have haxis_ne : normV (crossV u ⟨0, -1, 0⟩) ≠ 0 :=
      fun h0 => hcr ((normV_eq_zero_iff _).1 h0)
    have hn1 : normV (vdiv (crossV u ⟨0, -1, 0⟩) (normV (crossV u ⟨0, -1, 0⟩))) = 1 :=
      normV_vdiv_self _ haxis_ne
    refine ⟨rodrigues3 (vdiv (crossV u ⟨0, -1, 0⟩) (normV (crossV u ⟨0, -1, 0⟩)))
        (Real.arccos (dotV u ⟨0, -1, 0⟩)), ?_, htrans, ?_, fun hc => absurd hc hcr⟩
    · simp only [createAffineMatrix, hnorm]
      rw [if_neg haxis_ne]
      simp only [createRotationMatrix]
      rw [if_neg (by rw [hn1]; norm_num), hn1, vdiv_one]
      simp only [Option.map_some', Option.some.injEq]
    · intro hcnz
      have h1 : normV u = 1 := by
        rw [hu_def]
        exact normV_vdiv_self (subV bc ac) hnd
      have h2 : u.x ^ 2 + u.y ^ 2 + u.z ^ 2 = 1 := by
        have := sq_normV u
        rw [h1] at this
        simpa using this.symm
      exact rodrigues_rotates_to_yneg u h2 hcnz

/-- Witness for claim C5: from the origin toward 1, 0, 0. -/
theorem createAffineMatrix_rotates_witness :
    ∃ R : Mat3 ℝ,
      createAffineMatrix ⟨0, 0, 0⟩ ⟨1, 0, 0⟩
          = some (matMul (toMat4 R) (createTranslationMatrix (negV ⟨0, 0, 0⟩))) ∧
      mulPoint (createTranslationMatrix (negV (⟨0, 0, 0⟩ : Vec3 ℝ))) ⟨0, 0, 0⟩
          = ⟨0, 0, 0⟩ ∧
      (crossV (vdiv (subV ⟨1, 0, 0⟩ ⟨0, 0, 0⟩) (normV (subV ⟨1, 0, 0⟩ ⟨0, 0, 0⟩)))
            ⟨0, -1, 0⟩ ≠ ⟨0, 0, 0⟩ →
        mulVec3 R (vdiv (subV ⟨1, 0, 0⟩ ⟨0, 0, 0⟩) (normV (subV ⟨1, 0, 0⟩ ⟨0, 0, 0⟩)))
          = ⟨0, -1, 0⟩) ∧
      (crossV (vdiv (subV ⟨1, 0, 0⟩ ⟨0, 0, 0⟩) (normV (subV ⟨1, 0, 0⟩ ⟨0, 0, 0⟩)))
            ⟨0, -1, 0⟩ = ⟨0, 0, 0⟩ →
        R = idMat3) :=
  createAffineMatrix_rotates ⟨0, 0, 0⟩ ⟨1, 0, 0⟩
    (fun hh => by simpa [subV] using congrArg Vec3.x hh)

end DCCC
